import Mathlib

/-!
# hlash: service control state machine and subscription update pipeline

A shallow embedding of `hlash/svc/svc.go` (the `Control` closure built by
`svc.New`) and of `hlash/main.go` (`subscribeUpdateImmediate`, its `download`
closure, `readToFile`, `subscribeUpdate` and the `Run` hook of `main`).

External collaborators are taken as explicit oracles:
* the OS service driver (`github.com/kardianos/service`) is a state machine
  over an arbitrary state type, every method fallible;
* the network is a function from the attempt index to a response;
* the config validator (`executor.ParseWithPath`) is a predicate on file bytes;
* the file system is a map from path strings to optional byte contents.
-/

namespace hlash

/-! ## Part 1: `svc.go` -/

namespace service

/-- The `service.Status` byte of kardianos/service: `StatusUnknown = iota`,
then `StatusRunning`, then `StatusStopped`. -/
inductive Status
  | StatusUnknown
  | StatusRunning
  | StatusStopped
  deriving DecidableEq, Repr

/-- Numeric value of a status constant (used by the `status > 0` test). -/
def Status.val : Status → Nat
  | .StatusUnknown => 0
  | .StatusRunning => 1
  | .StatusStopped => 2

/-- Go `error` values seen by the controller: the two sentinels of the driver
library, the controller's own `ErrUnknownAction`, any other error, and an error
wrapping another one (`Unwrap`). -/
inductive Error
  | ErrNotInstalled
  | ErrNoServiceSystemDetected
  | ErrUnknownAction
  | other (msg : String)
  | wrap (msg : String) (inner : Error)
  deriving DecidableEq, Repr

/-- The chain walk of `errors.Is(err, target)` on a non-nil `err`. -/
def Error.is : Error → Error → Bool
  | .wrap msg inner, target =>
      decide (Error.wrap msg inner = target) || Error.is inner target
  | e, target => decide (e = target)

/-- The call `errors.Is(err, target)`; a nil `err` is never the target. -/
def errorsIs (err : Option Error) (target : Error) : Bool :=
  match err with
  | none => false
  | some e => e.is target

/-- The OS service driver as a capability set over a driver state `σ`; every
method returns its result together with the next driver state. -/
structure Service (σ : Type) where
  Status : σ → (Status × Option Error) × σ
  Start : σ → Option Error × σ
  Stop : σ → Option Error × σ
  Install : σ → Option Error × σ
  Uninstall : σ → Option Error × σ
  Run : σ → Option Error × σ

end service

open service (Error errorsIs)

/-- The driver entry points the controller can invoke. -/
inductive Call
  | build
  | Status
  | Start
  | Stop
  | Install
  | Uninstall
  | Run
  deriving DecidableEq, Repr

/-- The mutable locals of the `Control` closure (`m`, `err`, the service `s`)
together with the log of driver calls made so far and their error results. -/
structure Ctl (σ : Type) where
  m : String
  err : Option Error
  s : σ
  calls : List (Call × Option Error)

/-- The statement `err = s.Start()`. -/
def Ctl.Start {σ : Type} (d : service.Service σ) (c : Ctl σ) : Ctl σ :=
  { c with err := (d.Start c.s).1, s := (d.Start c.s).2,
           calls := c.calls ++ [(Call.Start, (d.Start c.s).1)] }

/-- The statement `err = s.Stop()`. -/
def Ctl.Stop {σ : Type} (d : service.Service σ) (c : Ctl σ) : Ctl σ :=
  { c with err := (d.Stop c.s).1, s := (d.Stop c.s).2,
           calls := c.calls ++ [(Call.Stop, (d.Stop c.s).1)] }

/-- The statement `err = s.Install()`. -/
def Ctl.Install {σ : Type} (d : service.Service σ) (c : Ctl σ) : Ctl σ :=
  { c with err := (d.Install c.s).1, s := (d.Install c.s).2,
           calls := c.calls ++ [(Call.Install, (d.Install c.s).1)] }

/-- The statement `err = s.Uninstall()`. -/
def Ctl.Uninstall {σ : Type} (d : service.Service σ) (c : Ctl σ) : Ctl σ :=
  { c with err := (d.Uninstall c.s).1, s := (d.Uninstall c.s).2,
           calls := c.calls ++ [(Call.Uninstall, (d.Uninstall c.s).1)] }

/-- The first `switch command` of `Control` (svc.go lines 53-102), run with the
`status, e` pair read before it. -/
def preSwitch {σ : Type} (d : service.Service σ) (command : String)
    (status : service.Status) (e : Option Error) (c : Ctl σ) : Ctl σ :=
  if command = "start" then
    if status = .StatusStopped then c.Start d else c
  else if command = "stop" then
    if status = .StatusRunning then c.Stop d else c
  else if command = "install" then
    let c1 := if errorsIs e .ErrNotInstalled then c.Install d else c
    if c1.err = none ∧ status = .StatusStopped then c1.Start d else c1
  else if command = "uninstall" then
    let c1 := if status = .StatusRunning then c.Stop d else c
    if status.val > 0 ∧ c1.err = none then c1.Uninstall d else c1
  else if command = "status" then
    if e ≠ none then
      if errorsIs e .ErrNotInstalled then { c with m := "服务未安装" }
      else if errorsIs e .ErrNoServiceSystemDetected then { c with m := "不支持的系统" }
      else { c with err := e }
    else
      match status with
      | .StatusRunning => { c with m := "已启动" }
      | .StatusStopped => { c with m := "已停止" }
      | .StatusUnknown => c
  else if command = "restart" then
    let c1 := if status = .StatusRunning then c.Stop d else c
    if c1.err = none then c1.Start d else c1
  else
    { c with err := some .ErrUnknownAction }

/-- The block `if err != nil { ... return }` (svc.go lines 104-113). -/
def convertErr {σ : Type} (c : Ctl σ) : Ctl σ :=
  if errorsIs c.err .ErrNotInstalled then { c with m := "服务未安装", err := none }
  else if errorsIs c.err .ErrNoServiceSystemDetected then
    { c with m := "不支持的系统", err := none }
  else c

/-- The second `switch command` (svc.go lines 116-138), run with the
re-queried `status, e` pair. -/
def postSwitch {σ : Type} (command : String) (status : service.Status)
    (e : Option Error) (c : Ctl σ) : Ctl σ :=
  if command = "start" ∨ command = "stop" ∨ command = "restart" ∨ command = "install" then
    if e ≠ none then
      if errorsIs e .ErrNotInstalled then { c with m := "服务未安装" }
      else if errorsIs e .ErrNoServiceSystemDetected then { c with m := "不支持的系统" }
      else c
    else
      match status with
      | .StatusRunning => { c with m := "已启动" }
      | .StatusStopped => { c with m := "已停止" }
      | .StatusUnknown => c
  else if command = "uninstall" then
    if ¬ errorsIs e .ErrNotInstalled then { c with err := e }
    else { c with m := "已卸载" }
  else c

/-- What one invocation of the `Control` closure yields: the returned pair
`(m, err)` and the driver calls it made, in order, with their error results. -/
structure Outcome where
  m : String
  err : Option Error
  calls : List (Call × Option Error)
  deriving DecidableEq, Repr

/-- The closure returned by `svc.New` (svc.go lines 39-141). `build` is the
result of `p.build()`, i.e. of `service.New`: an error, or the initial state of
the driver. -/
def Control {σ : Type} (d : service.Service σ) (build : Except Error σ)
    (command : String) : Outcome :=
  match build with
  | .error err => ⟨"", some err, [(Call.build, some err)]⟩
  | .ok s =>
    if command = "run" then
      ⟨"", (d.Run s).1, [(Call.build, none), (Call.Run, (d.Run s).1)]⟩
    else
      let c0 : Ctl σ :=
        ⟨"", none, (d.Status s).2, [(Call.build, none), (Call.Status, (d.Status s).1.2)]⟩
      let c1 := preSwitch d command (d.Status s).1.1 (d.Status s).1.2 c0
      if c1.err ≠ none then
        let c2 := convertErr c1
        ⟨c2.m, c2.err, c2.calls⟩
      else
        let c2 : Ctl σ :=
          { c1 with s := (d.Status c1.s).2,
                    calls := c1.calls ++ [(Call.Status, (d.Status c1.s).1.2)] }
        let c3 := postSwitch command (d.Status c1.s).1.1 (d.Status c1.s).1.2 c2
        ⟨c3.m, c3.err, c3.calls⟩

/-- The six verbs of `ControlAction`. -/
def ControlAction : List String :=
  ["start", "stop", "restart", "install", "uninstall", "status"]

/-- Exit status of the process after `Control.Run` (svc.go lines 27-36):
`os.Exit(1)` when the error is non-nil, normal return otherwise. -/
def exitStatus (o : Outcome) : Nat :=
  if o.err ≠ none then 1 else 0

/-! ### A reference driver -/

/-- Observable states of a well-behaved service manager. -/
inductive Installed
  | absent
  | stopped
  | running
  deriving DecidableEq, Repr

/-- A well-behaved driver: `Status` reports `(StatusUnknown, ErrNotInstalled)`
for an absent service, and every mutation moves between the three states or
fails with a plain error. -/
def refDriver : service.Service Installed where
  Status := fun s =>
    match s with
    | .absent => ((.StatusUnknown, some .ErrNotInstalled), s)
    | .stopped => ((.StatusStopped, none), s)
    | .running => ((.StatusRunning, none), s)
  Start := fun s =>
    match s with
    | .absent => (some .ErrNotInstalled, s)
    | _ => (none, .running)
  Stop := fun s =>
    match s with
    | .absent => (some .ErrNotInstalled, s)
    | _ => (none, .stopped)
  Install := fun s =>
    match s with
    | .absent => (none, .stopped)
    | _ => (some (.other "Init already exists"), s)
  Uninstall := fun s =>
    match s with
    | .absent => (some .ErrNotInstalled, s)
    | _ => (none, .absent)
  Run := fun s => (none, s)

/-- A driver every `Status` query of which fails with the given error, and
whose mutations all succeed. -/
def failingStatusDriver (e : Error) : service.Service Unit where
  Status := fun s => ((.StatusUnknown, some e), s)
  Start := fun s => (none, s)
  Stop := fun s => (none, s)
  Install := fun s => (none, s)
  Uninstall := fun s => (none, s)
  Run := fun s => (none, s)

/-- A non-nil error that is neither `ErrNotInstalled` nor
`ErrNoServiceSystemDetected` under `errors.Is`. -/
def hardFailure (e : Option Error) : Bool :=
  e.isSome && !errorsIs e .ErrNotInstalled && !errorsIs e .ErrNoServiceSystemDetected

/-- The driver calls that change the service: Start, Stop, Install, Uninstall. -/
def Call.isMutation : Call → Bool
  | .Start => true
  | .Stop => true
  | .Install => true
  | .Uninstall => true
  | _ => false

/-- Shape of the call log kept by the controller: every logged mutation either
succeeded or produced the current `err`, and a non-nil `err` is the result of
the last logged call, a mutation. -/
def Ctl.wf {σ : Type} (c : Ctl σ) : Prop :=
  (∀ x ∈ c.calls, x.1.isMutation = true → x.2 = none ∨ x.2 = c.err) ∧
  (c.err ≠ none → ∃ x, c.calls.getLast? = some x ∧ x.1.isMutation = true ∧ x.2 = c.err)

/-! ## Part 2: `main.go` -/

/-- File contents. -/
abbrev Bytes := List UInt8

/-- The file system: the regular file, if any, found at each path. -/
abbrev FS := String → Option Bytes

/-- The file system after `path` received the content `b`. -/
def FS.write (fs : FS) (path : String) (b : Bytes) : FS :=
  fun q => if q = path then some b else fs q

/-- The errors `subscribeUpdateImmediate` can return. -/
inductive UpdateError
  | newRequest
  | ctx
  | transport
  | status (code : Int)
  | create
  | copy
  | configTest
  | rename (oldpath newpath : String)
  | signal
  deriving DecidableEq, Repr

/-- What `client.Do(req)` gives on one attempt: an error, or a response with
its status code and body. -/
inductive Response
  | failed
  | status (code : Int) (body : Bytes)
  deriving DecidableEq, Repr

/-- Everything outside the program during one update: the network, the
cancellation of `ctx`, the disk, the validator, the clock and the signal call. -/
structure Env where
  /-- Whether `http.NewRequestWithContext` succeeds. -/
  requestOk : Bool
  /-- Whether `ctx.Done()` wins the `select` of the sleep before attempt `i`. -/
  done : Nat → Bool
  /-- The result of `client.Do` at attempt `i`. -/
  response : Nat → Response
  /-- Whether `os.Create` succeeds. -/
  createOk : Bool
  /-- The failure of `io.Copy`, if any: the number of bytes written before it. -/
  copyFails : Option Nat
  /-- Whether `executor.ParseWithPath` accepts a file with this content. -/
  valid : Bytes → Bool
  /-- The value of `time.Now().Format("20060102-150405")`. -/
  now : String
  /-- Whether the OS lets `os.Rename(oldpath, newpath)` through. -/
  renameOk : String → String → Bool
  /-- Whether `os.FindProcess(os.Getpid())` succeeds. -/
  findProcessOk : Bool
  /-- Whether `proc.Signal(syscall.SIGHUP)` succeeds. -/
  signalOk : Bool

/-- Observable actions of the updater, in order. -/
inductive Event
  | request (i : Nat)
  | sleep (d : Int)
  | write (path : String)
  | rename (oldpath newpath : String)
  | signal
  deriving DecidableEq, Repr

/-- The constant `time.Second`, in nanoseconds. -/
def Second : Int := 1000000000

/-- Reduction of an integer to the range of `int64` (two's complement). -/
def int64 (x : Int) : Int := (x + 2 ^ 63) % 2 ^ 64 - 2 ^ 63

/-- The shift `x << i` on `int64`. -/
def shl64 (x : Int) (i : Nat) : Int := int64 (x * 2 ^ i)

/-- The expression `min(time.Second*1<<i, time.Second*15)` of main.go line 180;
`*` and `<<` share one precedence level in Go and associate to the left. -/
def backoff (i : Nat) : Int := min (shl64 (int64 (Second * 1)) i) (int64 (Second * 15))

/-- How the retry loop of `download` is left. -/
inductive LoopExit
  | ret (err : Option UpdateError)
  | ok (body : Bytes)
  deriving DecidableEq, Repr

/-- The loop `for i := 0; i < 10; i++` of `download` (main.go lines 178-209),
over the indices still to run and the current value of `err`. -/
def attempts (env : Env) : List Nat → Option UpdateError → List Event × LoopExit
  | [], err => ([], .ret err)
  | i :: rest, _ =>
    if i > 0 ∧ env.done i = true then ([], .ret (some .ctx))
    else
      let slept : List Event := if i > 0 then [.sleep (backoff i)] else []
      match env.response i with
      | .failed =>
        if i < 9 then
          ((slept ++ [.request i]) ++ (attempts env rest (some .transport)).1,
            (attempts env rest (some .transport)).2)
        else (slept ++ [.request i], .ret (some .transport))
      | .status code body =>
        if code ≠ 200 then
          if code > 404 ∧ i < 9 then
            ((slept ++ [.request i]) ++ (attempts env rest (some (.status code))).1,
              (attempts env rest (some (.status code))).2)
          else (slept ++ [.request i], .ret (some (.status code)))
        else (slept ++ [.request i], .ok body)

/-- The function `readToFile` (main.go lines 289-304). -/
def readToFile (env : Env) (fs : FS) (src : Bytes) (saveTo : String) :
    Option UpdateError × FS :=
  if env.createOk = false then (some .create, fs)
  else
    match env.copyFails with
    | some n => (some .copy, fs.write saveTo (src.take n))
    | none => (none, fs.write saveTo src)

/-- Result of a step of the updater: its error, the file system it leaves and
the actions it performed. -/
structure Update where
  err : Option UpdateError
  fs : FS
  events : List Event

/-- The closure `download` of `subscribeUpdateImmediate` (main.go lines 144-219). -/
def download (env : Env) (fs : FS) (saveTo : String) : Update :=
  if env.requestOk = false then ⟨some .newRequest, fs, []⟩
  else
    match attempts env (List.range 10) none with
    | (evs, .ret err) => ⟨err, fs, evs⟩
    | (evs, .ok body) =>
      ⟨(readToFile env fs body saveTo).1, (readToFile env fs body saveTo).2,
        evs ++ [.write saveTo]⟩

/-- The closure `configTest` (main.go lines 221-224): the validator reads the
file at `fn` and judges its content. -/
def configTest (env : Env) (fs : FS) (fn : String) : Option UpdateError :=
  match fs fn with
  | none => some .configTest
  | some b => if env.valid b = true then none else some .configTest

/-- The call `os.Rename(oldpath, newpath)`: it fails when the source is missing
or the OS refuses, leaving the file system as it was; otherwise the content
moves, replacing what was at `newpath`. -/
def Rename (env : Env) (fs : FS) (oldpath newpath : String) : Option UpdateError × FS :=
  match fs oldpath with
  | none => (some (.rename oldpath newpath), fs)
  | some b =>
    if env.renameOk oldpath newpath = true then
      (none, fun q => if q = newpath then some b else if q = oldpath then none else fs q)
    else (some (.rename oldpath newpath), fs)

/-- The function `subscribeUpdateImmediate` (main.go lines 139-258); `target`
is the value of `C.Path.Resolve(C.Path.Config())`. The discarded second
`configTest` of line 240 changes nothing and is left out. -/
def subscribeUpdateImmediate (env : Env) (fs : FS) (target subscribeUrl : String) : Update :=
  if subscribeUrl = "" then ⟨none, fs, []⟩
  else
    let tempDl := target ++ ".update"
    let dl := download env fs tempDl
    if dl.err ≠ none then dl
    else if configTest env dl.fs tempDl ≠ none then
      ⟨configTest env dl.fs tempDl, dl.fs, dl.events⟩
    else
      let backup := target ++ "-" ++ env.now ++ ".backup"
      let bk : Update :=
        if (dl.fs target).isSome then
          ⟨(Rename env dl.fs target backup).1, (Rename env dl.fs target backup).2,
            if (Rename env dl.fs target backup).1 = none then
              dl.events ++ [.rename target backup] else dl.events⟩
        else ⟨none, dl.fs, dl.events⟩
      if bk.err ≠ none then bk
      else
        ⟨(Rename env bk.fs tempDl target).1, (Rename env bk.fs tempDl target).2,
          if (Rename env bk.fs tempDl target).1 = none then
            bk.events ++ [.rename tempDl target] else bk.events⟩

/-- The closure `reload` of `subscribeUpdate` (main.go lines 262-271): its
error, and whether `proc.Signal(syscall.SIGHUP)` was called. -/
def reload (env : Env) (reloadRequire : Bool) : Option UpdateError × Bool :=
  if reloadRequire = false then (none, false)
  else if env.findProcessOk = false then (some .signal, false)
  else (if env.signalOk = true then none else some .signal, true)

/-- One pass through the `case <-ticker.C` arm of the scheduler. -/
structure Cycle where
  update : Update
  /-- Whether the reload signal was sent in this cycle. -/
  signalled : Bool

/-- The arm `case <-ticker.C` of `subscribeUpdate` (main.go lines 278-284). -/
def cycle (env : Env) (fs : FS) (target subscribeUrl : String) (reloadRequire : Bool) :
    Cycle :=
  let u := subscribeUpdateImmediate env fs target subscribeUrl
  if u.err ≠ none then ⟨u, false⟩
  else ⟨u, (reload env reloadRequire).2⟩

/-- The `for`/`select` loop of `subscribeUpdate`: one cycle per tick that fires
before `ctx` is done; the end of the list is the arrival of `ctx.Done()`. -/
def ticking (target subscribeUrl : String) (reloadRequire : Bool) :
    FS → List Env → FS × List Cycle
  | fs, [] => (fs, [])
  | fs, env :: rest =>
    let c := cycle env fs target subscribeUrl reloadRequire
    ((ticking target subscribeUrl reloadRequire c.update.fs rest).1,
      c :: (ticking target subscribeUrl reloadRequire c.update.fs rest).2)

/-- The call `time.NewTicker(d)`, which panics (`none`) unless `d` is positive. -/
def NewTicker (d : Int) : Option Unit :=
  if d ≤ 0 then none else some ()

/-- The function `subscribeUpdate` (main.go lines 261-287): `none` when it
panics, otherwise the file system and the cycles run when `ctx` is cancelled. -/
def subscribeUpdate (fs : FS) (target subscribeUrl : String) (wait : Int)
    (reloadRequire : Bool) (ticks : List Env) : Option (FS × List Cycle) :=
  match NewTicker wait with
  | none => none
  | some _ => some (ticking target subscribeUrl reloadRequire fs ticks)

/-- The updater side of the `Run` hook built in `main` (main.go lines 72-82).
With `run` set, the first update runs at once and the scheduler follows (the
engine loop `clashRun`, which runs beside it, is not part of this model);
without it only the scheduler runs. -/
def mainRun (run : Bool) (fs : FS) (target subscribeUrl : String) (updateWait : Int)
    (first : Env) (ticks : List Env) : Option (FS × List Cycle) :=
  if run = true then
    subscribeUpdate (subscribeUpdateImmediate first fs target subscribeUrl).fs
      target subscribeUrl updateWait true ticks
  else
    subscribeUpdate fs target subscribeUrl updateWait true ticks

/-- Total time slept, in nanoseconds, over a list of events. -/
def sleepTotal : List Event → Int
  | [] => 0
  | .sleep d :: rest => d + sleepTotal rest
  | _ :: rest => sleepTotal rest

/-- Number of HTTP requests in a list of events. -/
def requestCount : List Event → Nat
  | [] => 0
  | .request _ :: rest => 1 + requestCount rest
  | _ :: rest => requestCount rest

/-! ### Reference environments -/

/-- A disk holding one live config. -/
def diskWithConfig : FS :=
  fun p => if p = "config.yaml" then some [1, 2, 3] else none

/-- An environment in which the first request returns 200 with the body
`[7, 8]`, and the validator accepts exactly the non-empty files. -/
def goodEnv : Env where
  requestOk := true
  done := fun _ => false
  response := fun _ => .status 200 [7, 8]
  createOk := true
  copyFails := none
  valid := fun b => !b.isEmpty
  now := "20240101-000000"
  renameOk := fun _ _ => true
  findProcessOk := true
  signalOk := true

/-- As `goodEnv`, with a validator that rejects every file. -/
def rejectingEnv : Env := { goodEnv with valid := fun _ => false }

/-- As `goodEnv`, with every rename onto the live path refused. -/
def saveFailsEnv : Env :=
  { goodEnv with renameOk := fun _ newpath => decide (newpath ≠ "config.yaml") }

/-- As `goodEnv`, with every rename away from the live path refused. -/
def backupFailsEnv : Env :=
  { goodEnv with renameOk := fun oldpath _ => decide (oldpath ≠ "config.yaml") }

/-- As `goodEnv`, with a server that always answers 503. -/
def unavailableEnv : Env := { goodEnv with response := fun _ => .status 503 [] }

/-! ## Theorems, part 1: the service controller -/

theorem Ctl.wf_Start {σ : Type} (d : service.Service σ) (c : Ctl σ)
    (h : c.wf) (he : c.err = none) : (c.Start d).wf := by
  obtain ⟨h1, _⟩ := h
  refine ⟨?_, ?_⟩
  · intro x hx hm
    simp only [Ctl.Start, List.mem_append, List.mem_singleton] at hx ⊢
    rcases hx with hx | rfl
    · rcases h1 x hx hm with h0 | h0
      · exact Or.inl h0
      · exact Or.inl (h0.trans he)
    · exact Or.inr rfl
  · intro _
    exact ⟨(Call.Start, (d.Start c.s).1), by simp [Ctl.Start], rfl, rfl⟩

theorem Ctl.wf_Stop {σ : Type} (d : service.Service σ) (c : Ctl σ)
    (h : c.wf) (he : c.err = none) : (c.Stop d).wf := by
  obtain ⟨h1, _⟩ := h
  refine ⟨?_, ?_⟩
  · intro x hx hm
    simp only [Ctl.Stop, List.mem_append, List.mem_singleton] at hx ⊢
    rcases hx with hx | rfl
    · rcases h1 x hx hm with h0 | h0
      · exact Or.inl h0
      · exact Or.inl (h0.trans he)
    · exact Or.inr rfl
  · intro _
    exact ⟨(Call.Stop, (d.Stop c.s).1), by simp [Ctl.Stop], rfl, rfl⟩

theorem Ctl.wf_Install {σ : Type} (d : service.Service σ) (c : Ctl σ)
    (h : c.wf) (he : c.err = none) : (c.Install d).wf := by
  obtain ⟨h1, _⟩ := h
  refine ⟨?_, ?_⟩
  · intro x hx hm
    simp only [Ctl.Install, List.mem_append, List.mem_singleton] at hx ⊢
    rcases hx with hx | rfl
    · rcases h1 x hx hm with h0 | h0
      · exact Or.inl h0
      · exact Or.inl (h0.trans he)
    · exact Or.inr rfl
  · intro _
    exact ⟨(Call.Install, (d.Install c.s).1), by simp [Ctl.Install], rfl, rfl⟩

theorem Ctl.wf_Uninstall {σ : Type} (d : service.Service σ) (c : Ctl σ)
    (h : c.wf) (he : c.err = none) : (c.Uninstall d).wf := by
  obtain ⟨h1, _⟩ := h
  refine ⟨?_, ?_⟩
  · intro x hx hm
    simp only [Ctl.Uninstall, List.mem_append, List.mem_singleton] at hx ⊢
    rcases hx with hx | rfl
    · rcases h1 x hx hm with h0 | h0
      · exact Or.inl h0
      · exact Or.inl (h0.trans he)
    · exact Or.inr rfl
  · intro _
    exact ⟨(Call.Uninstall, (d.Uninstall c.s).1), by simp [Ctl.Uninstall], rfl, rfl⟩

/-- The five mutating verbs keep the call log well formed. -/
theorem preSwitch_wf {σ : Type} (d : service.Service σ) (command : String)
    (status : service.Status) (e : Option Error) (c : Ctl σ)
    (hcmd : command ∈ ["start", "stop", "restart", "install", "uninstall"])
    (h : c.wf) (he : c.err = none) : (preSwitch d command status e c).wf := by
  simp only [List.mem_cons, List.mem_singleton, List.not_mem_nil, or_false] at hcmd
  rcases hcmd with rfl | rfl | rfl | rfl | rfl
  · simp only [preSwitch, if_true]
    split_ifs
    · exact Ctl.wf_Start d c h he
    · exact h
  · have : ("stop" = "start") = False := by decide
    simp only [preSwitch, this, if_false, if_true]
    split_ifs
    · exact Ctl.wf_Stop d c h he
    · exact h
  · have h1 : ("restart" = "start") = False := by decide
    have h2 : ("restart" = "stop") = False := by decide
    have h3 : ("restart" = "install") = False := by decide
    have h4 : ("restart" = "uninstall") = False := by decide
    have h5 : ("restart" = "status") = False := by decide
    simp only [preSwitch, h1, h2, h3, h4, h5, if_false, if_true]
    by_cases hr : status = .StatusRunning
    · simp only [hr, if_true]
      split_ifs with h0
      · exact Ctl.wf_Start d _ (Ctl.wf_Stop d c h he) h0
      · exact Ctl.wf_Stop d c h he
    · simp only [hr, if_false, he, if_true]
      exact Ctl.wf_Start d c h he
  · have h1 : ("install" = "start") = False := by decide
    have h2 : ("install" = "stop") = False := by decide
    simp only [preSwitch, h1, h2, if_false, if_true]
    by_cases hr : errorsIs e .ErrNotInstalled = true
    · simp only [hr, if_true]
      split_ifs with h0
      · exact Ctl.wf_Start d _ (Ctl.wf_Install d c h he) h0.1
      · exact Ctl.wf_Install d c h he
    · simp only [if_neg hr]
      split_ifs
      · exact Ctl.wf_Start d c h he
      · exact h
  · have h1 : ("uninstall" = "start") = False := by decide
    have h2 : ("uninstall" = "stop") = False := by decide
    have h3 : ("uninstall" = "install") = False := by decide
    simp only [preSwitch, h1, h2, h3, if_false, if_true]
    by_cases hr : status = .StatusRunning
    · simp only [hr, if_true]
      split_ifs with h0
      · exact Ctl.wf_Uninstall d _ (Ctl.wf_Stop d c h he) h0.2
      · exact Ctl.wf_Stop d c h he
    · simp only [hr, if_false]
      split_ifs
      · exact Ctl.wf_Uninstall d c h he
      · exact h

theorem convertErr_calls {σ : Type} (c : Ctl σ) : (convertErr c).calls = c.calls := by
  unfold convertErr
  split_ifs <;> rfl

theorem convertErr_err {σ : Type} (c : Ctl σ) :
    (convertErr c).err = if hardFailure c.err = true then c.err else none := by
  unfold convertErr hardFailure
  cases hc : c.err with
  | none => simp [errorsIs, hc]
  | some e =>
    by_cases h1 : errorsIs (some e) .ErrNotInstalled = true
    · simp [h1]
    · by_cases h2 : errorsIs (some e) .ErrNoServiceSystemDetected = true
      · simp [h1, h2]
      · simp [h1, h2, hc]

theorem convertErr_m {σ : Type} (c : Ctl σ) (h0 : c.err ≠ none) (h : hardFailure c.err = false) :
    (convertErr c).m = "服务未安装" ∨ (convertErr c).m = "不支持的系统" := by
  unfold convertErr
  unfold hardFailure at h
  cases hc : c.err with
  | none => exact absurd hc h0
  | some e =>
    rw [hc] at h
    by_cases h1 : errorsIs (some e) .ErrNotInstalled = true
    · simp [h1]
    · by_cases h2 : errorsIs (some e) .ErrNoServiceSystemDetected = true
      · simp [h1, h2]
      · simp [h1, h2] at h

theorem postSwitch_calls {σ : Type} (command : String) (status : service.Status) (e : Option Error)
    (c : Ctl σ) : (postSwitch command status e c).calls = c.calls := by
  unfold postSwitch
  split_ifs <;> first | rfl | (cases status <;> rfl)

theorem postSwitch_err {σ : Type} (command : String) (status : service.Status) (e : Option Error)
    (c : Ctl σ) (h : command ≠ "uninstall") : (postSwitch command status e c).err = c.err := by
  unfold postSwitch
  split_ifs <;> first | rfl | (cases status <;> rfl)

theorem postSwitch_err_uninstall {σ : Type} (status : service.Status) (e : Option Error) (c : Ctl σ) :
    (postSwitch "uninstall" status e c).err =
      if errorsIs e .ErrNotInstalled = true then c.err else e := by
  have h1 : ("uninstall" = "start") = False := by decide
  have h2 : ("uninstall" = "stop") = False := by decide
  have h3 : ("uninstall" = "restart") = False := by decide
  have h4 : ("uninstall" = "install") = False := by decide
  simp only [postSwitch, h1, h2, h3, h4, or_self, if_false, if_true]
  split_ifs <;> simp_all

/-- The state of the controller when the first `switch` is entered. -/
theorem entry_wf {σ : Type} (d : service.Service σ) (s : σ) :
    (Ctl.mk "" none (d.Status s).2
      [(Call.build, none), (Call.Status, (d.Status s).1.2)]).wf := by
  refine ⟨?_, ?_⟩
  · intro x hx hm
    simp only [List.mem_cons, List.mem_singleton, List.not_mem_nil, or_false] at hx
    rcases hx with rfl | rfl <;> simp [Call.isMutation] at hm
  · intro h
    exact absurd rfl h

theorem Control_of_err {σ : Type} (d : service.Service σ) (s : σ) (command : String)
    (hrun : command ≠ "run")
    (h : (preSwitch d command (d.Status s).1.1 (d.Status s).1.2
      ⟨"", none, (d.Status s).2, [(Call.build, none), (Call.Status, (d.Status s).1.2)]⟩).err
        ≠ none) :
    Control d (.ok s) command =
      ⟨(convertErr (preSwitch d command (d.Status s).1.1 (d.Status s).1.2
          ⟨"", none, (d.Status s).2, [(Call.build, none), (Call.Status, (d.Status s).1.2)]⟩)).m,
       (convertErr (preSwitch d command (d.Status s).1.1 (d.Status s).1.2
          ⟨"", none, (d.Status s).2, [(Call.build, none), (Call.Status, (d.Status s).1.2)]⟩)).err,
       (preSwitch d command (d.Status s).1.1 (d.Status s).1.2
          ⟨"", none, (d.Status s).2, [(Call.build, none), (Call.Status, (d.Status s).1.2)]⟩).calls⟩ := by
  simp only [Control, if_neg hrun, if_pos h, convertErr_calls]

theorem Control_of_ok {σ : Type} (d : service.Service σ) (s : σ) (command : String)
    (hrun : command ≠ "run") (c1 : Ctl σ)
    (hc : c1 = preSwitch d command (d.Status s).1.1 (d.Status s).1.2
      ⟨"", none, (d.Status s).2, [(Call.build, none), (Call.Status, (d.Status s).1.2)]⟩)
    (h : c1.err = none) :
    (Control d (.ok s) command).calls = c1.calls ++ [(Call.Status, (d.Status c1.s).1.2)] ∧
    (Control d (.ok s) command).err =
      (postSwitch command (d.Status c1.s).1.1 (d.Status c1.s).1.2
        { c1 with s := (d.Status c1.s).2,
                  calls := c1.calls ++ [(Call.Status, (d.Status c1.s).1.2)] }).err ∧
    (Control d (.ok s) command).m =
      (postSwitch command (d.Status c1.s).1.1 (d.Status c1.s).1.2
        { c1 with s := (d.Status c1.s).2,
                  calls := c1.calls ++ [(Call.Status, (d.Status c1.s).1.2)] }).m := by
  subst hc
  have h' : ¬ ((preSwitch d command (d.Status s).1.1 (d.Status s).1.2
      ⟨"", none, (d.Status s).2, [(Call.build, none), (Call.Status, (d.Status s).1.2)]⟩).err
        ≠ none) := fun hne => hne h
  simp only [Control, if_neg hrun, if_neg h', postSwitch_calls, and_self]

theorem hardFailure_none : hardFailure none = false := rfl

/-- A failure to build the service is returned as it is, for every verb. -/
theorem Control_build_failure {σ : Type} (d : service.Service σ) (e : Error)
    (command : String) :
    Control d (.error e) command = ⟨"", some e, [(Call.build, some e)]⟩ := rfl

/-- The five mutating verbs: when an error is returned and what a benign
mutation failure turns into. -/
theorem Control_mutating {σ : Type} (d : service.Service σ) (s : σ) (command : String)
    (hcmd : command ∈ ["start", "stop", "restart", "install", "uninstall"]) :
    ((Control d (.ok s) command).err ≠ none ↔
      (∃ x ∈ (Control d (.ok s) command).calls,
          x.1.isMutation = true ∧ hardFailure x.2 = true) ∨
      (command = "uninstall" ∧ ∃ e,
          (Control d (.ok s) command).calls.getLast? = some (Call.Status, some e) ∧
          e.is .ErrNotInstalled = false)) ∧
    (∀ x ∈ (Control d (.ok s) command).calls, x.1.isMutation = true → x.2 ≠ none →
        hardFailure x.2 = false →
      (Control d (.ok s) command).err = none ∧
      ((Control d (.ok s) command).m = "服务未安装" ∨
        (Control d (.ok s) command).m = "不支持的系统")) := by
  have hrun : command ≠ "run" := by
    rintro rfl
    revert hcmd
    decide
  obtain ⟨c1, hc1⟩ : ∃ c1 : Ctl σ, c1 = preSwitch d command (d.Status s).1.1 (d.Status s).1.2
      ⟨"", none, (d.Status s).2, [(Call.build, none), (Call.Status, (d.Status s).1.2)]⟩ :=
    ⟨_, rfl⟩
  have hwf : c1.wf := by
    rw [hc1]
    exact preSwitch_wf d command _ _ _ hcmd (entry_wf d s) rfl
  by_cases herr : c1.err = none
  · -- no mutation failed: the status is queried again
    obtain ⟨hcalls, he, _⟩ := Control_of_ok d s command hrun c1 hc1 herr
    have hmut : ∀ x ∈ (Control d (.ok s) command).calls, x.1.isMutation = true → x.2 = none := by
      intro x hx hm
      rw [hcalls, List.mem_append, List.mem_singleton] at hx
      rcases hx with hx | rfl
      · rcases hwf.1 x hx hm with h0 | h0
        · exact h0
        · exact h0.trans herr
      · simp [Call.isMutation] at hm
    refine ⟨?_, ?_⟩
    · by_cases hu : command = "uninstall"
      · subst hu
        rw [he, postSwitch_err_uninstall, hcalls]
        simp only [List.getLast?_append, List.getLast?_singleton, Option.or_some, herr]
        constructor
        · intro h
          right
          refine ⟨trivial, ?_⟩
          cases h2 : (d.Status c1.s).1.2 with
          | none => simp [h2, errorsIs] at h
          | some e =>
            refine ⟨e, rfl, ?_⟩
            by_contra hne
            simp [h2, errorsIs, hne] at h
        · rintro (⟨x, hx, hm, hh⟩ | ⟨_, e, h2, h3⟩)
          · rw [← hcalls] at hx
            rw [hmut x hx hm] at hh
            simp [hardFailure_none] at hh
          · simp only [Option.some.injEq, Prod.mk.injEq, true_and] at h2
            simp [h2, errorsIs, h3]
      · rw [he, postSwitch_err _ _ _ _ hu]
        simp only [herr, ne_eq, not_true_eq_false, false_iff, not_or]
        refine ⟨?_, fun h => hu h.1⟩
        rintro ⟨x, hx, hm, hh⟩
        rw [hmut x hx hm] at hh
        simp [hardFailure_none] at hh
    · intro x hx hm hne
      exact absurd (hmut x hx hm) hne
  · -- a mutation failed: the error is classified and returned
    have hne : (preSwitch d command (d.Status s).1.1 (d.Status s).1.2
      ⟨"", none, (d.Status s).2, [(Call.build, none), (Call.Status, (d.Status s).1.2)]⟩).err
        ≠ none := by
      rw [← hc1]
      exact herr
    have hO := Control_of_err d s command hrun hne
    rw [← hc1] at hO
    obtain ⟨last, hlast, hlm, hle⟩ := hwf.2 herr
    rw [hO]
    simp only [convertErr_err]
    refine ⟨?_, ?_⟩
    · constructor
      · intro h
        left
        have hh : hardFailure c1.err = true := by
          by_contra hcon
          simp [hcon] at h
        exact ⟨last, List.mem_of_getLast?_eq_some hlast, hlm, by rw [hle]; exact hh⟩
      · rintro (⟨x, hx, hm, hh⟩ | ⟨_, e, h2, _⟩)
        · rcases hwf.1 x hx hm with h0 | h0
          · rw [h0] at hh
            simp [hardFailure_none] at hh
          · rw [h0] at hh
            simp [hh, herr]
        · rw [hlast] at h2
          simp only [Option.some.injEq] at h2
          rw [h2] at hlm
          simp [Call.isMutation] at hlm
    · intro x hx hm hxne hsoft
      rcases hwf.1 x hx hm with h0 | h0
      · exact absurd h0 hxne
      · rw [h0] at hsoft
        exact ⟨by simp [hsoft], convertErr_m c1 herr hsoft⟩

theorem preSwitch_status {σ : Type} (d : service.Service σ) (status : service.Status)
    (e : Option Error) (c : Ctl σ) :
    preSwitch d "status" status e c =
      if e ≠ none then
        if errorsIs e .ErrNotInstalled then { c with m := "服务未安装" }
        else if errorsIs e .ErrNoServiceSystemDetected then { c with m := "不支持的系统" }
        else { c with err := e }
      else
        match status with
        | .StatusRunning => { c with m := "已启动" }
        | .StatusStopped => { c with m := "已停止" }
        | .StatusUnknown => c := by
  simp [preSwitch]

theorem postSwitch_status {σ : Type} (status : service.Status) (e : Option Error) (c : Ctl σ) :
    postSwitch "status" status e c = c := by
  simp [postSwitch]

/-- The verb `status`: an error is returned exactly when the one `Status()`
query it acts on fails with an error that is not one of the two sentinels. -/
theorem Control_status {σ : Type} (d : service.Service σ) (s : σ) :
    ((Control d (.ok s) "status").err ≠ none ↔ hardFailure (d.Status s).1.2 = true) ∧
    (∀ x ∈ (Control d (.ok s) "status").calls, x.1.isMutation = false) ∧
    ((d.Status s).1.2 ≠ none → hardFailure (d.Status s).1.2 = false →
      (Control d (.ok s) "status").err = none ∧
      ((Control d (.ok s) "status").m = "服务未安装" ∨
        (Control d (.ok s) "status").m = "不支持的系统")) := by
  have hrun : ("status" = "run") = False := by decide
  simp only [Control, hrun, if_false, preSwitch_status, postSwitch_status]
  rcases hS : d.Status s with ⟨⟨st, e⟩, s1⟩
  cases e with
  | none =>
    cases st <;> simp [hardFailure, errorsIs, Call.isMutation]
  | some e =>
    by_cases h1 : e.is .ErrNotInstalled = true
    · simp [hardFailure, errorsIs, h1, Call.isMutation]
    · by_cases h2 : e.is .ErrNoServiceSystemDetected = true
      · simp [hardFailure, errorsIs, h1, h2, Call.isMutation]
      · simp [hardFailure, errorsIs, h1, h2, convertErr, Call.isMutation]

/-- C4. For every driver whose first `Status()` returns `StatusUnknown` with
`ErrNotInstalled` and whose `Install()` succeeds, `Control("install")` makes
exactly the calls build, Status, Install, Status: `Start()` is never called,
because the guard before it tests the status read before `Install()`. The
error is nil and the message is that of the re-queried status, so a driver that
then reports a stopped service yields "已停止" and not "已启动". -/
theorem install_on_absent_never_starts {σ : Type} (d : service.Service σ) (s s1 : σ) (e : Error)
    (h1 : d.Status s = ((.StatusUnknown, some e), s1))
    (he : e.is .ErrNotInstalled = true)
    (h2 : (d.Install s1).1 = none) :
    (Control d (.ok s) "install").calls =
        [(Call.build, none), (Call.Status, some e), (Call.Install, none),
         (Call.Status, (d.Status (d.Install s1).2).1.2)] ∧
    (∀ x ∈ (Control d (.ok s) "install").calls, x.1 ≠ Call.Start) ∧
    (Control d (.ok s) "install").err = none ∧
    ((d.Status (d.Install s1).2).1 = (.StatusStopped, none) →
      (Control d (.ok s) "install").m = "已停止") := by
  have hpre : preSwitch d "install" .StatusUnknown (some e)
      ⟨"", none, s1, [(Call.build, none), (Call.Status, some e)]⟩ =
      ⟨"", none, (d.Install s1).2,
        [(Call.build, none), (Call.Status, some e), (Call.Install, none)]⟩ := by
    simp [preSwitch, errorsIs, he, Ctl.Install, h2]
  have hrun : ("install" = "run") = False := by decide
  have hcalls : (Control d (.ok s) "install").calls =
        [(Call.build, none), (Call.Status, some e), (Call.Install, none),
         (Call.Status, (d.Status (d.Install s1).2).1.2)] := by
    simp [Control, h1, hpre, postSwitch_calls]
  refine ⟨hcalls, ?_, ?_, ?_⟩
  · intro x hx
    rw [hcalls] at hx
    simp only [List.mem_cons, List.mem_singleton, List.not_mem_nil, or_false] at hx
    rcases hx with rfl | rfl | rfl | rfl <;> simp
  · simp [Control, h1, hpre, postSwitch_err]
  · intro h3
    have h4 : (d.Status (d.Install s1).2).1.1 = .StatusStopped := by rw [h3]
    have h5 : (d.Status (d.Install s1).2).1.2 = none := by rw [h3]
    simp [Control, h1, hpre, postSwitch, h4, h5]

theorem install_on_absent_never_starts_witness :
    (Control refDriver (.ok .absent) "install").m = "已停止" ∧
    (Control refDriver (.ok .absent) "install").err = none ∧
    ∀ x ∈ (Control refDriver (.ok .absent) "install").calls, x.1 ≠ Call.Start :=
  have h := install_on_absent_never_starts refDriver .absent .absent .ErrNotInstalled rfl rfl rfl
  ⟨h.2.2.2 rfl, h.2.2.1, h.2.1⟩

/-- C5 as stated fails: on the reference driver with the service absent
(`Status()` reports `ErrNotInstalled` before and after), `Control("uninstall")`
makes no mutation call but returns "已卸载", not "服务未安装". -/
theorem uninstall_on_absent_message_counterexample :
    refDriver.Status .absent = ((.StatusUnknown, some .ErrNotInstalled), .absent) ∧
    Control refDriver (.ok .absent) "uninstall" =
      ⟨"已卸载", none,
        [(Call.build, none), (Call.Status, some .ErrNotInstalled),
         (Call.Status, some .ErrNotInstalled)]⟩ ∧
    (Control refDriver (.ok .absent) "uninstall").m ≠ "服务未安装" := by
  decide

/-- C5 (amended). For every driver whose first `Status()` returns
`StatusUnknown` (with `ErrNotInstalled` or any other result) and whose next
`Status()` reports `ErrNotInstalled`, `Control("uninstall")` calls neither
`Stop()` nor `Uninstall()` (its calls are build, Status, Status) and returns
the message "已卸载" with a nil error. -/
theorem uninstall_on_absent {σ : Type} (d : service.Service σ) (s s1 s2 : σ)
    (e1 : Option Error) (e2 : Error) (st2 : service.Status)
    (h1 : d.Status s = ((.StatusUnknown, e1), s1))
    (h2 : d.Status s1 = ((st2, some e2), s2))
    (he2 : e2.is .ErrNotInstalled = true) :
    Control d (.ok s) "uninstall" =
      ⟨"已卸载", none,
        [(Call.build, none), (Call.Status, e1), (Call.Status, some e2)]⟩ := by
  have hpre : preSwitch d "uninstall" .StatusUnknown e1
      ⟨"", none, s1, [(Call.build, none), (Call.Status, e1)]⟩ =
      ⟨"", none, s1, [(Call.build, none), (Call.Status, e1)]⟩ := by
    simp [preSwitch, service.Status.val]
  simp [Control, h1, hpre, h2, postSwitch, errorsIs, he2]

theorem uninstall_on_absent_witness :
    Control refDriver (.ok .absent) "uninstall" =
      ⟨"已卸载", none,
        [(Call.build, none), (Call.Status, some .ErrNotInstalled),
         (Call.Status, some .ErrNotInstalled)]⟩ :=
  uninstall_on_absent refDriver .absent .absent .absent (some .ErrNotInstalled)
    .ErrNotInstalled .StatusUnknown rfl rfl rfl

/-- C6 as stated fails in both directions. With a driver whose `Status()`
always fails with a plain error, `Control("start")` returns a nil error although
a driver call failed with an error that is neither sentinel. With a driver
whose `Status()` always fails with `ErrNoServiceSystemDetected`,
`Control("uninstall")` returns that error (exit status 1) and no message,
although no call failed with any other error. -/
theorem Control_error_iff_counterexample :
    ((Control (failingStatusDriver (.other "boom")) (.ok ()) "start").err = none ∧
      ∃ x ∈ (Control (failingStatusDriver (.other "boom")) (.ok ()) "start").calls,
        hardFailure x.2 = true) ∧
    ((Control (failingStatusDriver .ErrNoServiceSystemDetected) (.ok ()) "uninstall").err
        = some .ErrNoServiceSystemDetected ∧
      (Control (failingStatusDriver .ErrNoServiceSystemDetected) (.ok ()) "uninstall").m = "" ∧
      exitStatus (Control (failingStatusDriver .ErrNoServiceSystemDetected) (.ok ())
        "uninstall") = 1 ∧
      ∀ x ∈ (Control (failingStatusDriver .ErrNoServiceSystemDetected) (.ok ())
          "uninstall").calls, hardFailure x.2 = false) := by
  decide

/-- C6 (amended). For every verb among start, stop, restart, install, uninstall
and status and every behaviour of the driver, once the service is built:
`Control` returns a non-nil error (exit status 1) if and only if
(a) a `Start`, `Stop`, `Install` or `Uninstall` call it made failed with an
error that is neither `ErrNotInstalled` nor `ErrNoServiceSystemDetected`, or
(b) the verb is status and its `Status()` query failed with such an error, or
(c) the verb is uninstall, no mutation failed, and the re-queried `Status()`
returned an error other than `ErrNotInstalled`.
A mutation failure, or the `Status()` failure of the verb status, with one of
the two sentinel errors yields an informational message and a nil error. -/
theorem Control_error_iff {σ : Type} (d : service.Service σ) (s : σ) (command : String)
    (hcmd : command ∈ ControlAction) :
    ((Control d (.ok s) command).err ≠ none ↔
      (∃ x ∈ (Control d (.ok s) command).calls,
          x.1.isMutation = true ∧ hardFailure x.2 = true) ∨
      (command = "status" ∧ hardFailure (d.Status s).1.2 = true) ∨
      (command = "uninstall" ∧ ∃ e,
          (Control d (.ok s) command).calls.getLast? = some (Call.Status, some e) ∧
          e.is .ErrNotInstalled = false)) ∧
    (exitStatus (Control d (.ok s) command) = 1 ↔ (Control d (.ok s) command).err ≠ none) ∧
    (∀ x ∈ (Control d (.ok s) command).calls, x.1.isMutation = true → x.2 ≠ none →
        hardFailure x.2 = false →
      (Control d (.ok s) command).err = none ∧
      ((Control d (.ok s) command).m = "服务未安装" ∨
        (Control d (.ok s) command).m = "不支持的系统")) ∧
    (command = "status" → (d.Status s).1.2 ≠ none → hardFailure (d.Status s).1.2 = false →
      (Control d (.ok s) command).err = none ∧
      ((Control d (.ok s) command).m = "服务未安装" ∨
        (Control d (.ok s) command).m = "不支持的系统")) := by
  have hexit : exitStatus (Control d (.ok s) command) = 1 ↔
      (Control d (.ok s) command).err ≠ none := by
    unfold exitStatus
    split_ifs with h
    · exact ⟨fun _ => h, fun _ => rfl⟩
    · exact ⟨fun h1 => absurd h1 (by decide), fun h1 => absurd h1 h⟩
  by_cases hst : command = "status"
  · subst hst
    obtain ⟨h1, h2, h3⟩ := Control_status d s
    refine ⟨?_, hexit, ?_, fun _ => h3⟩
    · rw [h1]
      constructor
      · intro h
        exact Or.inr (Or.inl ⟨rfl, h⟩)
      · rintro (⟨x, hx, hm, _⟩ | ⟨_, h⟩ | ⟨h, _⟩)
        · rw [h2 x hx] at hm
          exact absurd hm (by decide)
        · exact h
        · exact absurd h (by decide)
    · intro x hx hm
      rw [h2 x hx] at hm
      exact absurd hm (by decide)
  · have hmem : command ∈ ["start", "stop", "restart", "install", "uninstall"] := by
      simp only [ControlAction, List.mem_cons, List.mem_singleton, List.not_mem_nil,
        or_false] at hcmd ⊢
      tauto
    obtain ⟨h1, h2⟩ := Control_mutating d s command hmem
    refine ⟨?_, hexit, h2, fun h => absurd h hst⟩
    rw [h1]
    constructor
    · rintro (h | h)
      · exact Or.inl h
      · exact Or.inr (Or.inr h)
    · rintro (h | ⟨h, _⟩ | h)
      · exact Or.inl h
      · exact absurd h hst
      · exact Or.inr h

theorem Control_error_iff_witness :
    "restart" ∈ ControlAction ∧
    (Call.Start, some Error.ErrNotInstalled) ∈
      (Control refDriver (.ok .absent) "restart").calls ∧
    (Control refDriver (.ok .absent) "restart").err = none ∧
    ((Control refDriver (.ok .absent) "restart").m = "服务未安装" ∨
      (Control refDriver (.ok .absent) "restart").m = "不支持的系统") :=
  ⟨by decide, by decide,
    (Control_error_iff refDriver .absent "restart" (by decide)).2.2.1
      (Call.Start, some Error.ErrNotInstalled) (by decide) rfl (by decide) rfl⟩

/-! ## Theorems, part 2: the subscription updater -/

theorem tempDl_ne_target (target : String) : target ++ ".update" ≠ target := by
  intro h
  have h1 := congrArg String.length h
  rw [String.length_append] at h1
  have h2 : (".update" : String).length = 7 := by decide
  omega

theorem target_ne_tempDl (target : String) : target ≠ target ++ ".update" :=
  fun h => tempDl_ne_target target h.symm

theorem backup_ne_target (target now : String) :
    target ++ "-" ++ now ++ ".backup" ≠ target := by
  intro h
  have h1 := congrArg String.length h
  simp only [String.length_append] at h1
  have h2 : (".backup" : String).length = 7 := by decide
  omega

theorem tempDl_ne_backup (target now : String) :
    target ++ ".update" ≠ target ++ "-" ++ now ++ ".backup" := by
  intro h
  have h1 := congrArg String.data h
  simp only [String.data_append, List.append_assoc] at h1
  have h2 := List.append_cancel_left h1
  simp only [List.singleton_append, List.cons.injEq] at h2
  exact absurd h2.1 (by decide)

theorem dotBackup_ne_tempDl (q target : String) : q ++ ".backup" ≠ target ++ ".update" := by
  intro h
  have h1 := congrArg String.data h
  simp only [String.data_append] at h1
  have h2 := (List.append_inj' h1 (by decide)).2
  exact absurd h2 (by decide)

theorem attempts_cons_snd (env : Env) (i : Nat) (rest : List Nat) (err : Option UpdateError) :
    (attempts env (i :: rest) err).2 =
      if i > 0 ∧ env.done i = true then .ret (some .ctx)
      else
        match env.response i with
        | .failed =>
          if i < 9 then (attempts env rest (some .transport)).2
          else .ret (some .transport)
        | .status code body =>
          if code ≠ 200 then
            if code > 404 ∧ i < 9 then (attempts env rest (some (.status code))).2
            else .ret (some (.status code))
          else .ok body := by
  rw [attempts]
  by_cases h1 : i > 0 ∧ env.done i = true
  · simp only [if_pos h1]
  · simp only [if_neg h1]
    cases env.response i with
    | failed => by_cases h2 : i < 9 <;> simp only [h2, if_true, if_false]
    | status code body =>
      by_cases h2 : code ≠ 200
      · by_cases h3 : code > 404 ∧ i < 9
        · simp only [if_pos h2, if_pos h3]
        · simp only [if_pos h2, if_neg h3]
      · simp only [if_neg h2]

theorem attempts_ok (env : Env) (body : Bytes) :
    ∀ (l : List Nat) (err : Option UpdateError), (attempts env l err).2 = .ok body →
      ∃ i ∈ l, env.response i = .status 200 body := by
  intro l
  induction l with
  | nil => intro err h; simp [attempts] at h
  | cons i rest ih =>
    intro err h
    rw [attempts_cons_snd] at h
    by_cases h1 : i > 0 ∧ env.done i = true
    · simp [if_pos h1] at h
    · rw [if_neg h1] at h
      cases hr : env.response i with
      | failed =>
        simp only [hr] at h
        by_cases h2 : i < 9
        · rw [if_pos h2] at h
          obtain ⟨j, hj, hjr⟩ := ih _ h
          exact ⟨j, List.mem_cons_of_mem _ hj, hjr⟩
        · simp [if_neg h2] at h
      | status code b =>
        simp only [hr] at h
        by_cases h2 : code ≠ 200
        · rw [if_pos h2] at h
          by_cases h3 : code > 404 ∧ i < 9
          · rw [if_pos h3] at h
            obtain ⟨j, hj, hjr⟩ := ih _ h
            exact ⟨j, List.mem_cons_of_mem _ hj, hjr⟩
          · simp [if_neg h3] at h
        · rw [if_neg h2] at h
          simp only [LoopExit.ok.injEq] at h
          have hc : code = 200 := by
            by_contra hne
            exact h2 hne
          exact ⟨i, List.mem_cons_self _ _, by rw [hr, hc, h]⟩

theorem attempts_ret (env : Env) :
    ∀ (l : List Nat) (err : Option UpdateError), (attempts env l err).2 = .ret none →
      l = [] ∧ err = none := by
  intro l
  induction l with
  | nil => intro err h; simpa [attempts] using h
  | cons i rest ih =>
    intro err h
    exfalso
    rw [attempts_cons_snd] at h
    by_cases h1 : i > 0 ∧ env.done i = true
    · simp [if_pos h1] at h
    · rw [if_neg h1] at h
      cases hr : env.response i with
      | failed =>
        simp only [hr] at h
        by_cases h2 : i < 9
        · rw [if_pos h2] at h
          exact absurd (ih _ h).2 (by simp)
        · simp [if_neg h2] at h
      | status code b =>
        simp only [hr] at h
        by_cases h2 : code ≠ 200
        · rw [if_pos h2] at h
          by_cases h3 : code > 404 ∧ i < 9
          · rw [if_pos h3] at h
            exact absurd (ih _ h).2 (by simp)
          · simp [if_neg h3] at h
        · simp [if_neg h2] at h

theorem attempts_events (env : Env) (a b : String) :
    ∀ (l : List Nat) (err : Option UpdateError), Event.rename a b ∉ (attempts env l err).1 := by
  intro l
  induction l with
  | nil => intro err; simp [attempts]
  | cons i rest ih =>
    intro err
    rw [attempts]
    by_cases h1 : i > 0 ∧ env.done i = true
    · simp [if_pos h1]
    · simp only [if_neg h1]
      cases env.response i with
      | failed =>
        by_cases h2 : i < 9 <;> by_cases h0 : i > 0 <;> simp [h2, h0, ih]
      | status code body =>
        by_cases h2 : code = 200 <;> by_cases h3 : (code > 404 ∧ i < 9) <;>
          by_cases h0 : i > 0 <;> simp [h2, h3, h0, ih]

/-- A download that returns nil got a 200 response within the ten attempts and
stored exactly its body at the destination. -/
theorem download_ok (env : Env) (fs : FS) (saveTo : String)
    (h : (download env fs saveTo).err = none) :
    ∃ i, i < 10 ∧ ∃ body, env.response i = .status 200 body ∧
      (download env fs saveTo).fs = fs.write saveTo body := by
  by_cases hreq : env.requestOk = false
  · simp [download, hreq] at h
  · simp only [download, if_neg hreq] at h ⊢
    rcases hA : attempts env (List.range 10) none with ⟨evs, ex⟩
    cases ex with
    | ret err =>
      simp only [hA] at h
      subst h
      have := attempts_ret env (List.range 10) none (by rw [hA])
      simp at this
    | ok body =>
      simp only [hA] at h ⊢
      obtain ⟨i, hi, hri⟩ := attempts_ok env body (List.range 10) none (by rw [hA])
      refine ⟨i, List.mem_range.mp hi, body, hri, ?_⟩
      by_cases hc : env.createOk = false
      · simp [readToFile, hc] at h
      · cases hcf : env.copyFails with
        | some n => simp [readToFile, hc, hcf] at h
        | none => simp [readToFile, hc, hcf]

/-- The download writes nowhere but at its destination. -/
theorem download_frame (env : Env) (fs : FS) (saveTo q : String) (hq : q ≠ saveTo) :
    (download env fs saveTo).fs q = fs q := by
  unfold download
  split_ifs
  · rfl
  · rcases hA : attempts env (List.range 10) none with ⟨evs, ex⟩
    cases ex with
    | ret err => rfl
    | ok body =>
      simp only [readToFile]
      split_ifs
      · rfl
      · cases env.copyFails <;> simp [FS.write, hq]

theorem download_events (env : Env) (fs : FS) (saveTo a b : String) :
    Event.rename a b ∉ (download env fs saveTo).events := by
  unfold download
  split_ifs
  · simp
  · rcases hA : attempts env (List.range 10) none with ⟨evs, ex⟩
    have h := attempts_events env a b (List.range 10) none
    rw [hA] at h
    cases ex with
    | ret err => exact h
    | ok body => simpa using h

theorem attempts_ret_rename (env : Env) (a b : String) :
    ∀ (l : List Nat) (err : Option UpdateError),
      (attempts env l err).2 = .ret (some (.rename a b)) → err = some (.rename a b) := by
  intro l
  induction l with
  | nil => intro err h; simpa [attempts] using h
  | cons i rest ih =>
    intro err h
    exfalso
    rw [attempts_cons_snd] at h
    by_cases h1 : i > 0 ∧ env.done i = true
    · simp [if_pos h1] at h
    · rw [if_neg h1] at h
      cases hr : env.response i with
      | failed =>
        simp only [hr] at h
        by_cases h2 : i < 9
        · rw [if_pos h2] at h
          exact absurd (ih _ h) (by simp)
        · simp [if_neg h2] at h
      | status code body =>
        simp only [hr] at h
        by_cases h2 : code ≠ 200
        · rw [if_pos h2] at h
          by_cases h3 : code > 404 ∧ i < 9
          · rw [if_pos h3] at h
            exact absurd (ih _ h) (by simp)
          · simp [if_neg h3] at h
        · simp [if_neg h2] at h

/-- The download never fails with the error of a rename. -/
theorem download_err_ne_rename (env : Env) (fs : FS) (saveTo a b : String) :
    (download env fs saveTo).err ≠ some (.rename a b) := by
  intro h
  by_cases hreq : env.requestOk = false
  · simp [download, hreq] at h
  · simp only [download, if_neg hreq] at h
    rcases hA : attempts env (List.range 10) none with ⟨evs, ex⟩
    cases ex with
    | ret err =>
      simp only [hA] at h
      have := attempts_ret_rename env a b (List.range 10) none (by rw [hA, h])
      simp at this
    | ok body =>
      simp only [hA] at h
      by_cases hc : env.createOk = false
      · simp [readToFile, hc] at h
      · cases hcf : env.copyFails <;> simp [readToFile, hc, hcf] at h

theorem Rename_ok (env : Env) (fs : FS) (a c : String) (b : Bytes)
    (h : fs a = some b) (hok : env.renameOk a c = true) :
    Rename env fs a c =
      (none, fun q => if q = c then some b else if q = a then none else fs q) := by
  simp [Rename, h, hok]

theorem Rename_cases (env : Env) (fs : FS) (a c : String) :
    (∃ b, fs a = some b ∧ env.renameOk a c = true ∧ Rename env fs a c =
        (none, fun q => if q = c then some b else if q = a then none else fs q)) ∨
    Rename env fs a c = (some (.rename a c), fs) := by
  cases h : fs a with
  | none => right; simp [Rename, h]
  | some b =>
    by_cases hok : env.renameOk a c = true
    · left; exact ⟨b, rfl, hok, Rename_ok env fs a c b h hok⟩
    · right; simp [Rename, h, hok]

theorem configTest_cases (env : Env) (fs : FS) (fn : String) :
    configTest env fs fn = none ∨ configTest env fs fn = some .configTest := by
  unfold configTest
  cases fs fn with
  | none => exact Or.inr rfl
  | some b =>
    by_cases hv : env.valid b = true
    · left; simp [hv]
    · right; simp [hv]

/-- C1. For every file system and every non-empty source: if the download
returns nil (so some attempt got HTTP 200), the downloaded file passes
validation and the OS lets both renames through, then
`subscribeUpdateImmediate` returns nil, the live path holds exactly the bytes
of the 200 response that were stored at `<live>.update`, and `<live>.update`
no longer exists. -/
theorem update_commits (env : Env) (fs : FS) (target subscribeUrl : String)
    (hurl : subscribeUrl ≠ "")
    (hdl : (download env fs (target ++ ".update")).err = none)
    (hvalid : configTest env (download env fs (target ++ ".update")).fs
      (target ++ ".update") = none)
    (hbk : (fs target).isSome = true →
      env.renameOk target (target ++ "-" ++ env.now ++ ".backup") = true)
    (hsave : env.renameOk (target ++ ".update") target = true) :
    (subscribeUpdateImmediate env fs target subscribeUrl).err = none ∧
    (∃ i, i < 10 ∧ ∃ body, env.response i = .status 200 body ∧
      (download env fs (target ++ ".update")).fs (target ++ ".update") = some body ∧
      (subscribeUpdateImmediate env fs target subscribeUrl).fs target = some body) ∧
    (subscribeUpdateImmediate env fs target subscribeUrl).fs (target ++ ".update") = none := by
  obtain ⟨i, hi, body, hresp, hfs⟩ := download_ok env fs _ hdl
  have hT : (download env fs (target ++ ".update")).fs (target ++ ".update") = some body := by
    rw [hfs]; simp [FS.write]
  have hL : (download env fs (target ++ ".update")).fs target = fs target :=
    download_frame env fs _ _ (target_ne_tempDl target)
  have hne := tempDl_ne_target target
  have hnb := tempDl_ne_backup target env.now
  have key : (subscribeUpdateImmediate env fs target subscribeUrl).err = none ∧
      (subscribeUpdateImmediate env fs target subscribeUrl).fs target = some body ∧
      (subscribeUpdateImmediate env fs target subscribeUrl).fs (target ++ ".update") = none := by
    simp only [subscribeUpdateImmediate, if_neg hurl, hdl, hvalid, ne_eq, not_true_eq_false,
      if_false, hL]
    cases hlive : fs target with
    | none =>
      simp only [Option.isSome_none, Bool.false_eq_true, if_false]
      rw [Rename_ok env _ _ _ body hT hsave]
      simp [hne]
    | some old =>
      have hb := hbk (by rw [hlive]; rfl)
      have hL' : (download env fs (target ++ ".update")).fs target = some old := by
        rw [hL, hlive]
      simp only [Option.isSome_some, if_true]
      rw [Rename_ok env _ _ _ old hL' hb]
      simp only [if_true, ne_eq, not_true_eq_false, if_false]
      have hT2 : (fun q => if q = target ++ "-" ++ env.now ++ ".backup" then some old
          else if q = target then none
          else (download env fs (target ++ ".update")).fs q) (target ++ ".update") =
          some body := by
        simp only [if_neg hnb, if_neg hne, hT]
      rw [Rename_ok env _ _ _ body hT2 hsave]
      simp [hne]
  exact ⟨key.1, ⟨i, hi, body, hresp, hT, key.2.1⟩, key.2.2⟩

theorem update_commits_witness :
    (subscribeUpdateImmediate goodEnv diskWithConfig "config.yaml" "http://sub").err = none ∧
    (subscribeUpdateImmediate goodEnv diskWithConfig "config.yaml" "http://sub").fs
      ("config.yaml" ++ ".update") = none :=
  have h := update_commits goodEnv diskWithConfig "config.yaml" "http://sub"
    (by decide) (by decide) (by decide) (by decide) (by decide)
  ⟨h.1, h.2.2⟩

/-- C2. For every file system and every non-empty source: if the download
returns nil and the downloaded file fails validation, then
`subscribeUpdateImmediate` returns an error, every path other than
`<live>.update` (the live path among them) holds what it held before, no path
ending in `.backup` changes, and no rename takes place. -/
theorem invalid_download_keeps_live (env : Env) (fs : FS) (target subscribeUrl : String)
    (hurl : subscribeUrl ≠ "")
    (hdl : (download env fs (target ++ ".update")).err = none)
    (hinvalid : configTest env (download env fs (target ++ ".update")).fs
      (target ++ ".update") ≠ none) :
    (subscribeUpdateImmediate env fs target subscribeUrl).err = some .configTest ∧
    (subscribeUpdateImmediate env fs target subscribeUrl).fs target = fs target ∧
    (∀ p, p ≠ target ++ ".update" →
      (subscribeUpdateImmediate env fs target subscribeUrl).fs p = fs p) ∧
    (∀ q, (subscribeUpdateImmediate env fs target subscribeUrl).fs (q ++ ".backup") =
      fs (q ++ ".backup")) ∧
    (∀ a b, Event.rename a b ∉ (subscribeUpdateImmediate env fs target subscribeUrl).events) := by
  have hu : subscribeUpdateImmediate env fs target subscribeUrl =
      ⟨configTest env (download env fs (target ++ ".update")).fs (target ++ ".update"),
        (download env fs (target ++ ".update")).fs,
        (download env fs (target ++ ".update")).events⟩ := by
    simp only [subscribeUpdateImmediate, if_neg hurl, hdl, ne_eq, not_true_eq_false, if_false,
      hinvalid, not_false_eq_true, if_true]
  have hct : configTest env (download env fs (target ++ ".update")).fs (target ++ ".update")
      = some .configTest := by
    rcases configTest_cases env (download env fs (target ++ ".update")).fs
      (target ++ ".update") with h | h
    · exact absurd h hinvalid
    · exact h
  rw [hu]
  refine ⟨hct, ?_, ?_, ?_, ?_⟩
  · exact download_frame env fs _ _ (target_ne_tempDl target)
  · intro p hp
    exact download_frame env fs _ _ hp
  · intro q
    exact download_frame env fs _ _ (dotBackup_ne_tempDl q target)
  · intro a b
    exact download_events env fs _ a b

theorem invalid_download_keeps_live_witness :
    (subscribeUpdateImmediate rejectingEnv diskWithConfig "config.yaml" "http://sub").err
      = some .configTest ∧
    (subscribeUpdateImmediate rejectingEnv diskWithConfig "config.yaml" "http://sub").fs
      "config.yaml" = some [1, 2, 3] :=
  have h := invalid_download_keeps_live rejectingEnv diskWithConfig "config.yaml" "http://sub"
    (by decide) (by decide) (by decide)
  ⟨h.1, h.2.1⟩

/-- C3 as stated fails: with a live config present, a valid download, a backup
rename that succeeds and a final rename that the OS refuses,
`subscribeUpdateImmediate` returns the error of the final rename and the live
path is left absent (its old bytes sit in the backup file). -/
theorem swap_failure_counterexample :
    diskWithConfig "config.yaml" = some [1, 2, 3] ∧
    (subscribeUpdateImmediate saveFailsEnv diskWithConfig "config.yaml" "http://sub").err
      = some (.rename "config.yaml.update" "config.yaml") ∧
    (subscribeUpdateImmediate saveFailsEnv diskWithConfig "config.yaml" "http://sub").fs
      "config.yaml" = none ∧
    (subscribeUpdateImmediate saveFailsEnv diskWithConfig "config.yaml" "http://sub").fs
      "config.yaml-20240101-000000.backup" = some [1, 2, 3] := by
  decide

/-- C3 (amended). For every file system in which a live config exists and every
way the download, the validation and the two renames can fail: if
`subscribeUpdateImmediate` returns any error other than that of the final
rename (the backup rename's among them), the live path still holds the bytes
it held before the call; if it returns the error of the final rename of
`<live>.update` onto the live path, the live path is absent and the backup
file holds the bytes the live path held before. -/
theorem swap_failure_effects (env : Env) (fs : FS) (target subscribeUrl : String)
    (old : Bytes) (hlive : fs target = some old) :
    (∀ e, (subscribeUpdateImmediate env fs target subscribeUrl).err = some e →
      e ≠ .rename (target ++ ".update") target →
      (subscribeUpdateImmediate env fs target subscribeUrl).fs target = some old) ∧
    ((subscribeUpdateImmediate env fs target subscribeUrl).err =
        some (.rename (target ++ ".update") target) →
      (subscribeUpdateImmediate env fs target subscribeUrl).fs target = none ∧
      (subscribeUpdateImmediate env fs target subscribeUrl).fs
        (target ++ "-" ++ env.now ++ ".backup") = some old) := by
  have hL : (download env fs (target ++ ".update")).fs target = some old := by
    rw [download_frame env fs _ _ (target_ne_tempDl target), hlive]
  have hne := tempDl_ne_target target
  have hbt := backup_ne_target target env.now
  by_cases hurl : subscribeUrl = ""
  · simp [subscribeUpdateImmediate, hurl]
  by_cases hdl : (download env fs (target ++ ".update")).err = none
  swap
  · -- the download failed
    have hu : subscribeUpdateImmediate env fs target subscribeUrl =
        download env fs (target ++ ".update") := by
      simp only [subscribeUpdateImmediate, if_neg hurl, ne_eq, hdl, not_false_eq_true, if_true]
    rw [hu]
    refine ⟨fun _ _ _ => hL, fun h => ?_⟩
    exact absurd h (download_err_ne_rename env fs _ _ _)
  by_cases hct : configTest env (download env fs (target ++ ".update")).fs
      (target ++ ".update") = none
  swap
  · -- the validation failed
    have hu : subscribeUpdateImmediate env fs target subscribeUrl =
        ⟨configTest env (download env fs (target ++ ".update")).fs (target ++ ".update"),
          (download env fs (target ++ ".update")).fs,
          (download env fs (target ++ ".update")).events⟩ := by
      simp only [subscribeUpdateImmediate, if_neg hurl, hdl, ne_eq, not_true_eq_false, if_false,
        hct, not_false_eq_true, if_true]
    rw [hu]
    refine ⟨fun _ _ _ => hL, fun h => ?_⟩
    rcases configTest_cases env (download env fs (target ++ ".update")).fs
      (target ++ ".update") with h0 | h0
    · exact absurd h0 hct
    · simp only [h0] at h
      exact absurd h (by simp)
  -- download and validation passed: the two renames
  simp only [subscribeUpdateImmediate, if_neg hurl, hdl, hct, ne_eq, not_true_eq_false,
    if_false, hL, Option.isSome_some, if_true]
  rcases Rename_cases env (download env fs (target ++ ".update")).fs target
      (target ++ "-" ++ env.now ++ ".backup") with ⟨b, hb, _, hR⟩ | hR
  · rw [hL] at hb
    simp only [Option.some.injEq] at hb
    subst hb
    rw [hR]
    simp only [if_true, not_true_eq_false, if_false]
    rcases Rename_cases env (fun q => if q = target ++ "-" ++ env.now ++ ".backup" then some old
          else if q = target then none
          else (download env fs (target ++ ".update")).fs q) (target ++ ".update") target
      with ⟨b2, _, _, hR2⟩ | hR2
    · rw [hR2]
      simp
    · rw [hR2]
      simp [hbt.symm]
  · rw [hR]
    simp [hL, hne.symm]

theorem swap_failure_effects_witness :
    diskWithConfig "config.yaml" = some [1, 2, 3] ∧
    (subscribeUpdateImmediate saveFailsEnv diskWithConfig "config.yaml" "http://sub").fs
      "config.yaml" = none :=
  ⟨by decide, ((swap_failure_effects saveFailsEnv diskWithConfig "config.yaml" "http://sub"
    [1, 2, 3] (by decide)).2 (by decide)).1⟩

theorem backoff_values :
    backoff 1 = 2 * Second ∧ backoff 2 = 4 * Second ∧ backoff 3 = 8 * Second ∧
    backoff 4 = 15 * Second ∧ backoff 5 = 15 * Second ∧ backoff 6 = 15 * Second ∧
    backoff 7 = 15 * Second ∧ backoff 8 = 15 * Second ∧ backoff 9 = 15 * Second := by
  decide

theorem backoff_exact (i : Nat) (h1 : 1 ≤ i) (h2 : i < 10) :
    shl64 (int64 (Second * 1)) i = Second * 2 ^ i ∧
    backoff i = min (Second * 2 ^ i) (Second * 15) := by
  interval_cases i <;> decide

/-- C7. For every sequence of ten responses that all carry a status above 404,
with no cancellation: the download closure performs exactly ten requests,
sleeps 2, 4, 8, 15, 15, 15, 15, 15, 15 seconds before attempts 2..10 (104 s in
total, each sleep being `min(2^i s, 15 s)` with a shift that does not leave the
range of `int64`), returns the status error of the tenth response and leaves
the file system, the destination included, as it was. -/
theorem download_exhausts_retries (env : Env) (fs : FS) (saveTo : String)
    (hreq : env.requestOk = true)
    (hdone : ∀ i, i < 10 → env.done i = false)
    (hresp : ∀ i, i < 10 → ∃ code body, env.response i = .status code body ∧ 404 < code) :
    (download env fs saveTo).events =
      [.request 0, .sleep (2 * Second), .request 1, .sleep (4 * Second), .request 2,
       .sleep (8 * Second), .request 3, .sleep (15 * Second), .request 4,
       .sleep (15 * Second), .request 5, .sleep (15 * Second), .request 6,
       .sleep (15 * Second), .request 7, .sleep (15 * Second), .request 8,
       .sleep (15 * Second), .request 9] ∧
    requestCount (download env fs saveTo).events = 10 ∧
    sleepTotal (download env fs saveTo).events = 104 * Second ∧
    (∀ i, 1 ≤ i → i < 10 →
      shl64 (int64 (Second * 1)) i = Second * 2 ^ i ∧
      backoff i = min (Second * 2 ^ i) (Second * 15)) ∧
    (∃ code body, env.response 9 = .status code body ∧ 404 < code ∧
      (download env fs saveTo).err = some (.status code)) ∧
    (download env fs saveTo).fs = fs := by
  obtain ⟨c0, b0, r0, k0⟩ := hresp 0 (by decide)
  obtain ⟨c1, b1, r1, k1⟩ := hresp 1 (by decide)
  obtain ⟨c2, b2, r2, k2⟩ := hresp 2 (by decide)
  obtain ⟨c3, b3, r3, k3⟩ := hresp 3 (by decide)
  obtain ⟨c4, b4, r4, k4⟩ := hresp 4 (by decide)
  obtain ⟨c5, b5, r5, k5⟩ := hresp 5 (by decide)
  obtain ⟨c6, b6, r6, k6⟩ := hresp 6 (by decide)
  obtain ⟨c7, b7, r7, k7⟩ := hresp 7 (by decide)
  obtain ⟨c8, b8, r8, k8⟩ := hresp 8 (by decide)
  obtain ⟨c9, b9, r9, k9⟩ := hresp 9 (by decide)
  have n0 : c0 ≠ 200 := by omega
  have n1 : c1 ≠ 200 := by omega
  have n2 : c2 ≠ 200 := by omega
  have n3 : c3 ≠ 200 := by omega
  have n4 : c4 ≠ 200 := by omega
  have n5 : c5 ≠ 200 := by omega
  have n6 : c6 ≠ 200 := by omega
  have n7 : c7 ≠ 200 := by omega
  have n8 : c8 ≠ 200 := by omega
  have n9 : c9 ≠ 200 := by omega
  have hrange : List.range 10 = [0, 1, 2, 3, 4, 5, 6, 7, 8, 9] := by decide
  obtain ⟨v1, v2, v3, v4, v5, v6, v7, v8, v9⟩ := backoff_values
  have hA : attempts env (List.range 10) none =
      ([.request 0, .sleep (2 * Second), .request 1, .sleep (4 * Second), .request 2,
        .sleep (8 * Second), .request 3, .sleep (15 * Second), .request 4,
        .sleep (15 * Second), .request 5, .sleep (15 * Second), .request 6,
        .sleep (15 * Second), .request 7, .sleep (15 * Second), .request 8,
        .sleep (15 * Second), .request 9], .ret (some (.status c9))) := by
    rw [hrange]
    simp [attempts, r0, r1, r2, r3, r4, r5, r6, r7, r8, r9, n0, n1, n2, n3, n4, n5, n6, n7,
      n8, n9, k0, k1, k2, k3, k4, k5, k6, k7, k8, k9, hdone, v1, v2, v3, v4, v5, v6, v7,
      v8, v9]
  have hD : download env fs saveTo =
      ⟨some (.status c9), fs,
        [.request 0, .sleep (2 * Second), .request 1, .sleep (4 * Second), .request 2,
        .sleep (8 * Second), .request 3, .sleep (15 * Second), .request 4,
        .sleep (15 * Second), .request 5, .sleep (15 * Second), .request 6,
        .sleep (15 * Second), .request 7, .sleep (15 * Second), .request 8,
        .sleep (15 * Second), .request 9]⟩ := by
    simp [download, hreq, hA]
  rw [hD]
  refine ⟨rfl, rfl, ?_, backoff_exact, ⟨c9, b9, r9, k9, rfl⟩, rfl⟩
  simp only [sleepTotal]
  ring

theorem download_exhausts_retries_witness :
    (download unavailableEnv diskWithConfig "config.yaml.update").err = some (.status 503) ∧
    requestCount (download unavailableEnv diskWithConfig "config.yaml.update").events = 10 ∧
    sleepTotal (download unavailableEnv diskWithConfig "config.yaml.update").events
      = 104 * Second :=
  have h := download_exhausts_retries unavailableEnv diskWithConfig "config.yaml.update"
    rfl (fun _ _ => rfl) (fun _ _ => ⟨503, [], rfl, by decide⟩)
  ⟨by decide, h.2.1, h.2.2.1⟩

/-- The update returns nil exactly when the source is empty or the downloaded
file was renamed onto the live path. -/
theorem update_nil_iff (env : Env) (fs : FS) (target subscribeUrl : String) :
    (subscribeUpdateImmediate env fs target subscribeUrl).err = none ↔
      subscribeUrl = "" ∨
      Event.rename (target ++ ".update") target ∈
        (subscribeUpdateImmediate env fs target subscribeUrl).events := by
  have hne := tempDl_ne_target target
  by_cases hurl : subscribeUrl = ""
  · simp [subscribeUpdateImmediate, hurl]
  have hev := download_events env fs (target ++ ".update") (target ++ ".update") target
  by_cases hdl : (download env fs (target ++ ".update")).err = none
  swap
  · have hu : subscribeUpdateImmediate env fs target subscribeUrl =
        download env fs (target ++ ".update") := by
      simp only [subscribeUpdateImmediate, if_neg hurl, ne_eq, hdl, not_false_eq_true, if_true]
    rw [hu]
    simp [hurl, hdl, hev]
  by_cases hct : configTest env (download env fs (target ++ ".update")).fs
      (target ++ ".update") = none
  swap
  · have hu : subscribeUpdateImmediate env fs target subscribeUrl =
        ⟨configTest env (download env fs (target ++ ".update")).fs (target ++ ".update"),
          (download env fs (target ++ ".update")).fs,
          (download env fs (target ++ ".update")).events⟩ := by
      simp only [subscribeUpdateImmediate, if_neg hurl, hdl, ne_eq, not_true_eq_false, if_false,
        hct, not_false_eq_true, if_true]
    rw [hu]
    simp [hurl, hct, hev]
  simp only [subscribeUpdateImmediate, if_neg hurl, hdl, hct, ne_eq, not_true_eq_false,
    if_false, false_or]
  by_cases hlive : ((download env fs (target ++ ".update")).fs target).isSome = true
  · simp only [hlive, if_true]
    rcases Rename_cases env (download env fs (target ++ ".update")).fs target
        (target ++ "-" ++ env.now ++ ".backup") with ⟨b, _, _, hR⟩ | hR
    · rw [hR]
      simp only [if_true, not_true_eq_false, if_false]
      rcases Rename_cases env (fun q => if q = target ++ "-" ++ env.now ++ ".backup" then some b
            else if q = target then none
            else (download env fs (target ++ ".update")).fs q) (target ++ ".update") target
        with ⟨b2, _, _, hR2⟩ | hR2
      · rw [hR2]
        simp
      · rw [hR2]
        simp [hev, hne, hurl]
    · rw [hR]
      simp [hev, hurl]
  · have hlive2 : ((download env fs (target ++ ".update")).fs target).isSome = false := by
      simpa using hlive
    simp only [hlive2, Bool.false_eq_true, if_false]
    rcases Rename_cases env (download env fs (target ++ ".update")).fs (target ++ ".update")
        target with ⟨b2, _, _, hR2⟩ | hR2
    · rw [hR2]
      simp
    · rw [hR2]
      simp [hev, hurl]

theorem cycle_signalled (env : Env) (fs : FS) (target subscribeUrl : String)
    (reloadRequire : Bool)
    (h : (cycle env fs target subscribeUrl reloadRequire).signalled = true) :
    reloadRequire = true ∧
    (cycle env fs target subscribeUrl reloadRequire).update.err = none := by
  unfold cycle at h ⊢
  by_cases he : (subscribeUpdateImmediate env fs target subscribeUrl).err = none
  · simp only [he, ne_eq, not_true_eq_false, if_false] at h ⊢
    refine ⟨?_, trivial⟩
    cases reloadRequire with
    | true => rfl
    | false => simp [reload] at h
  · simp [he] at h

theorem cycle_update (env : Env) (fs : FS) (target subscribeUrl : String)
    (reloadRequire : Bool) :
    (cycle env fs target subscribeUrl reloadRequire).update =
      subscribeUpdateImmediate env fs target subscribeUrl := by
  simp only [cycle]
  split_ifs <;> rfl

theorem ticking_cycles (target subscribeUrl : String) (reloadRequire : Bool) :
    ∀ (ticks : List Env) (fs : FS), ∀ c ∈ (ticking target subscribeUrl reloadRequire fs ticks).2,
      ∃ env fs1, c = cycle env fs1 target subscribeUrl reloadRequire := by
  intro ticks
  induction ticks with
  | nil => intro fs c hc; simp [ticking] at hc
  | cons env rest ih =>
    intro fs c hc
    simp only [ticking, List.mem_cons] at hc
    rcases hc with rfl | hc
    · exact ⟨env, fs, rfl⟩
    · exact ih _ c hc

theorem ticking_length (target subscribeUrl : String) (reloadRequire : Bool) :
    ∀ (ticks : List Env) (fs : FS),
      (ticking target subscribeUrl reloadRequire fs ticks).2.length = ticks.length := by
  intro ticks
  induction ticks with
  | nil => intro fs; rfl
  | cons env rest ih => intro fs; simp [ticking, ih]

/-- With a positive interval the scheduler creates its ticker, runs one cycle
per tick and returns when `ctx` is done. -/
theorem subscribeUpdate_positive (fs : FS) (target subscribeUrl : String) (wait : Int)
    (reloadRequire : Bool) (ticks : List Env) (h : 0 < wait) :
    ∃ r, subscribeUpdate fs target subscribeUrl wait reloadRequire ticks = some r ∧
      r.2.length = ticks.length := by
  refine ⟨ticking target subscribeUrl reloadRequire fs ticks, ?_, ticking_length _ _ _ _ _⟩
  simp [subscribeUpdate, NewTicker, not_le.mpr h]

/-- C8 as stated fails: with an empty source the update is skipped (it returns
nil without any request, write or rename) and the cycle still sends the reload
signal. -/
theorem reload_on_skipped_counterexample :
    (subscribeUpdate diskWithConfig "config.yaml" "" Second true [goodEnv]).map
      (fun r => r.2.map (fun c => (c.signalled, c.update.err, c.update.events)))
      = some [(true, none, [])] := by
  decide

/-- C8 (amended). In every cycle of the scheduler, for every source and every
update outcome, the reload signal is sent only if that cycle's
`subscribeUpdateImmediate` returned nil, which happens exactly when the source
is empty (Skipped) or the downloaded file was renamed onto the live path
(Committed); when the download, the validation or a rename fails, no reload is
sent. -/
theorem reload_only_after_nil_update (fs : FS) (target subscribeUrl : String) (wait : Int)
    (reloadRequire : Bool) (ticks : List Env) (r : FS × List Cycle)
    (h : subscribeUpdate fs target subscribeUrl wait reloadRequire ticks = some r) :
    ∀ c ∈ r.2,
      (c.signalled = true → c.update.err = none) ∧
      (c.update.err = none ↔
        subscribeUrl = "" ∨ Event.rename (target ++ ".update") target ∈ c.update.events) ∧
      (c.update.err ≠ none → c.signalled = false) := by
  intro c hc
  have hr : r = ticking target subscribeUrl reloadRequire fs ticks := by
    unfold subscribeUpdate at h
    cases hN : NewTicker wait with
    | none => simp [hN] at h
    | some u => simp only [hN, Option.some.injEq] at h; exact h.symm
  rw [hr] at hc
  obtain ⟨env, fs1, rfl⟩ := ticking_cycles target subscribeUrl reloadRequire ticks fs c hc
  have h1 : (cycle env fs1 target subscribeUrl reloadRequire).signalled = true →
      (cycle env fs1 target subscribeUrl reloadRequire).update.err = none :=
    fun hs => (cycle_signalled env fs1 target subscribeUrl reloadRequire hs).2
  refine ⟨h1, ?_, ?_⟩
  · rw [cycle_update]
    exact update_nil_iff env fs1 target subscribeUrl
  · intro hne
    cases hs : (cycle env fs1 target subscribeUrl reloadRequire).signalled with
    | false => rfl
    | true => exact absurd (h1 hs) hne

theorem reload_only_after_nil_update_witness :
    subscribeUpdate diskWithConfig "config.yaml" "http://sub" Second true [rejectingEnv] =
      some (ticking "config.yaml" "http://sub" true diskWithConfig [rejectingEnv]) ∧
    (cycle rejectingEnv diskWithConfig "config.yaml" "http://sub" true).signalled = false :=
  ⟨rfl, ((reload_only_after_nil_update diskWithConfig "config.yaml" "http://sub" Second true
    [rejectingEnv] _ rfl) (cycle rejectingEnv diskWithConfig "config.yaml" "http://sub" true)
    (List.Mem.head _)).2.2 (by decide)⟩

/-- C9. In updater-only mode (`run` false) the `Run` hook calls the scheduler
with `reloadRequire` set, exactly as in engine mode, so the reload signal is
sent: with a source whose download commits, the one cycle run sends SIGHUP. -/
theorem updater_only_mode_signals :
    (∀ (fs : FS) (target subscribeUrl : String) (wait : Int) (first : Env) (ticks : List Env),
      mainRun false fs target subscribeUrl wait first ticks =
        subscribeUpdate fs target subscribeUrl wait true ticks) ∧
    (mainRun false diskWithConfig "config.yaml" "http://sub" Second goodEnv [goodEnv]).map
      (fun r => r.2.map (fun c => (c.signalled, c.update.err))) = some [(true, none)] := by
  refine ⟨fun _ _ _ _ _ _ => rfl, ?_⟩
  decide

/-- C10. With the interval 0, the default of the flag `subscribe_interval`,
`time.NewTicker` panics: `subscribeUpdate` creates no ticker and runs no cycle,
whatever the source, in both modes of the `Run` hook. -/
theorem subscribeUpdate_zero_interval_panics (fs : FS) (target subscribeUrl : String)
    (reloadRequire run : Bool) (first : Env) (ticks : List Env) :
    NewTicker 0 = none ∧
    subscribeUpdate fs target subscribeUrl 0 reloadRequire ticks = none ∧
    mainRun run fs target subscribeUrl 0 first ticks = none := by
  refine ⟨rfl, rfl, ?_⟩
  cases run <;> rfl

end hlash
